import Mathlib

/-!
Verification of the Bookla booking widgets (Framer components).

This file gives a shallow embedding of the logic shared by the widgets:

* the duration model and its ISO-8601 rendering (`durationToISO`, two
  variants: the flexible component drops `days`, the rental component
  folds `days` into hours);
* the rental component's slot matcher `checkSlotAvailability` (24h
  minimum-duration gate followed by a scan over the times response);
* the flexible component's `formatSlots` (flatten, sort by start time,
  keep the first slot of each local wall-clock time);
* the form validator `validateField` / `validateForm`;
* the booking submitter `makeBooking`, the availability fetcher
  `fetchAvailableDates`, the step controller `proceedToNextStep`, and the
  navigation effect on terminal steps (`getRouteId` / `proceedToRoute`).

Dates are modelled by their millisecond timestamps (JavaScript
`Date.getTime`).  Environment-provided functions (URL parsing, number
parsing, `toLocaleTimeString`) are parameters of the definitions that
call them.  State updates performed through React setters are modelled
by explicit record updates on a `ComponentState` record.
-/

set_option linter.unusedVariables false

namespace Booking

/-! ### Durations and ISO-8601 rendering -/

/-- The `Duration` interface: `{days, hours, minutes}` (non-negative
integer components as produced by the duration pickers). -/
structure Duration where
  days : Nat
  hours : Nat
  minutes : Nat
deriving DecidableEq, Repr

/-- Total minutes denoted by a duration value. -/
def Duration.totalMinutes (d : Duration) : Nat :=
  d.days * 1440 + d.hours * 60 + d.minutes

/-- Decimal digit character, `digitChar d` is the character for digit `d`. -/
def digitChar (d : Nat) : Char := Char.ofNat (48 + d)

/-- Fuelled decimal rendering of a natural number (JavaScript number to
string conversion for non-negative integers, as used by template
literals).  The fuel argument only forces structural termination. -/
def natCharsAux : Nat → Nat → List Char
  | 0, _ => []
  | fuel + 1, n =>
    if n < 10 then [digitChar n]
    else natCharsAux fuel (n / 10) ++ [digitChar (n % 10)]

/-- Decimal digit string of a natural number. -/
def natChars (n : Nat) : List Char := natCharsAux (n + 1) n

/-- Decimal rendering as a `String`. -/
def natStr (n : Nat) : String := String.mk (natChars n)

namespace Flexible

/-- The flexible component's `durationToISO`: the template literal
`PT(hours)H(minutes)M` — the `days` component is not used. -/
def durationToISO (d : Duration) : String :=
  "PT" ++ natStr d.hours ++ "H" ++ natStr d.minutes ++ "M"

end Flexible

namespace Rental

/-- The rental component's `durationToISO`: the template literal
`PT(days * 24 + hours)H(minutes)M`. -/
def durationToISO (d : Duration) : String :=
  "PT" ++ natStr (d.days * 24 + d.hours) ++ "H" ++ natStr d.minutes ++ "M"

end Rental

/-! ### Time slots and the rental component's slot matcher -/

/-- The `TimeSlot` interface.  Its `startTime`/`endTime` are ISO strings
in the source; slots are consumed through `new Date(slot.startTime)`, so
they are modelled by their millisecond timestamps.  The optional `price`
is presentation-only and omitted. -/
structure TimeSlot where
  startTime : Int
  endTime : Int
deriving DecidableEq, Repr

/-- The `TimeSlotWithResource` interface: a slot paired with the
resource offering it. -/
structure TimeSlotWithResource where
  timeSlot : TimeSlot
  resourceID : String
deriving DecidableEq, Repr

/-- A `times` response of the get-times endpoint: resource ids (in API
response order, as `Object.keys` yields them) paired with their slot
lists. -/
abbrev TimesResponse := List (String × List TimeSlot)

/-- A duration as computed by `calculateDuration` (components may be
negative when the selected range is reversed, hence `Int`). -/
structure IDuration where
  days : Int
  hours : Int
  minutes : Int
deriving DecidableEq, Repr

namespace Rental

/-- The rental component's `calculateDuration`: `Math.floor` is `Int.fdiv`
and the JavaScript remainder operator is `Int.tmod`. -/
def calculateDuration (startMs endMs : Int) : IDuration :=
  let diffMs := endMs - startMs
  let totalMinutes := Int.fdiv diffMs 60000
  let hours := Int.fdiv totalMinutes 60
  let minutes := Int.tmod totalMinutes 60
  let days := Int.fdiv hours 24
  { days := days, hours := Int.tmod hours 24, minutes := minutes }

/-- The value `duration.days * 24 + duration.hours + duration.minutes / 60`
computed by `checkSlotAvailability` (exact rational; the JavaScript
float computation agrees with it on the comparison against 24 for all
reachable values). -/
def totalHours (d : IDuration) : ℚ :=
  (d.days : ℚ) * 24 + (d.hours : ℚ) + (d.minutes : ℚ) / 60

/-- The scan loop of the rental component's `checkSlotAvailability`:
resources in API response order, slots of each resource in list order;
the first slot whose start is within one minute (strictly less than
60000 ms) of the requested start wins. -/
def findMatchingSlot (times : TimesResponse) (startMs : Int) :
    Option TimeSlotWithResource :=
  match times with
  | [] => none
  | (resourceID, slots) :: rest =>
    match slots.find? (fun slot => (slot.startTime - startMs).natAbs < 60000) with
    | some slot => some { timeSlot := slot, resourceID := resourceID }
    | none => findMatchingSlot rest startMs

/-- Outcome of `checkSlotAvailability`.  `blocked` is the early return of
the minimum-duration gate: the selected slot is set to `null` and the
times API is never queried (the gate precedes the fetch in the source);
`noMatch` also sets the selected slot to `null`, after the scan. -/
inductive SlotCheck where
  | blocked
  | matched (slot : TimeSlotWithResource)
  | noMatch
deriving DecidableEq, Repr

/-- The rental component's `checkSlotAvailability`, with the times
response passed as a parameter (`times` is only consulted on the
non-blocked path). -/
def checkSlotAvailability (startMs endMs : Int) (times : TimesResponse) :
    SlotCheck :=
  let duration := calculateDuration startMs endMs
  if totalHours duration < 24 then .blocked
  else
    match findMatchingSlot times startMs with
    | some slot => .matched slot
    | none => .noMatch

end Rental

namespace Flexible

/-- Stable insertion into a list sorted by ascending slot start time: the
new element goes after all elements whose start does not exceed its own,
matching the stable ascending sort of `Array.prototype.sort` with the
comparator `a.start - b.start`. -/
def insertSlot (x : TimeSlotWithResource) :
    List TimeSlotWithResource → List TimeSlotWithResource
  | [] => [x]
  | y :: ys =>
    if y.timeSlot.startTime ≤ x.timeSlot.startTime then y :: insertSlot x ys
    else x :: y :: ys

/-- Stable ascending sort by slot start time (the `sort` call of
`formatSlots`). -/
def sortSlots : List TimeSlotWithResource → List TimeSlotWithResource
  | [] => []
  | x :: xs => insertSlot x (sortSlots xs)

/-- The dedupe `filter` of `formatSlots`: an element is kept exactly when
its index equals the `findIndex` of the first element bearing the same
key, i.e. exactly the first occurrence of each key survives, in order.
`seen` accumulates the keys of the occurrences already kept. -/
def keepFirstAux (key : TimeSlotWithResource → String) (seen : List String) :
    List TimeSlotWithResource → List TimeSlotWithResource
  | [] => []
  | x :: xs =>
    if seen.contains (key x) then keepFirstAux key seen xs
    else x :: keepFirstAux key (key x :: seen) xs

/-- The dedupe `filter` of `formatSlots`, starting from no seen keys. -/
def keepFirstByKey (key : TimeSlotWithResource → String)
    (l : List TimeSlotWithResource) : List TimeSlotWithResource :=
  keepFirstAux key [] l

/-- The flatten step of `formatSlots`: every resource's slots, tagged with
the resource id, resources in API response order. -/
def flattenSlots (times : TimesResponse) : List TimeSlotWithResource :=
  times.flatMap (fun p => p.2.map (fun t => { timeSlot := t, resourceID := p.1 }))

/-- The flexible component's `formatSlots`.  `localTimeString` is the
environment's `new Date(ms).toLocaleTimeString()` (a function of the
timestamp once the browser locale and timezone are fixed). -/
def formatSlots (localTimeString : Int → String) (times : TimesResponse) :
    List TimeSlotWithResource :=
  let timeSlots := flattenSlots times
  keepFirstByKey (fun x => localTimeString x.timeSlot.startTime)
    (sortSlots timeSlots)

end Flexible

/-- Consume leading decimal digits of a character list, accumulating
their value onto `acc`; returns the value and the unconsumed suffix. -/
def parseNatAux : List Char → Nat → Nat × List Char
  | [], acc => (acc, [])
  | c :: cs, acc =>
    if c.isDigit then parseNatAux cs (acc * 10 + (c.toNat - 48))
    else (acc, c :: cs)

/-- Modelled from the spec: the total minutes denoted by an ISO-8601
duration string of the shape `PT<h>H<m>M` (the only shape the
components produce).  This is the spec's round-trip reading of the
string; the repository itself never parses these strings. -/
def parseISOMinutes (s : String) : Option Nat :=
  match s.data with
  | 'P' :: 'T' :: rest =>
    match parseNatAux rest 0 with
    | (h, 'H' :: rest2) =>
      match parseNatAux rest2 0 with
      | (m, ['M']) => some (h * 60 + m)
      | _ => none
    | _ => none
  | _ => none

/-! ### Form validation (flexible component's FormView) -/

/-- The `type` union of the `CustomFormField` interface. -/
inductive FieldType where
  | text
  | number
  | multiselect
  | select
  | phone
  | url
  | textarea
deriving DecidableEq, Repr

/-- The `CustomFormField` interface (presentation-only members
`placeholderText`, `inputWidth` and `options` omitted).  The source's
`type` member is spelt `type'`. -/
structure CustomFormField where
  type' : FieldType
  required : Bool
  labelText : String
  errorText : String
deriving DecidableEq, Repr

/-- The `FormValidation` interface; the `errors` object is modelled as an
association list from field label to message, in insertion order. -/
structure FormValidation where
  isValid : Bool
  errors : List (String × String)
deriving DecidableEq, Repr

/-- Character class of the phone pattern: a decimal digit, an ASCII
whitespace (the characters of the regex class `\s` that can occur in the
modelled inputs), `-`, `(` or `)`. -/
def isPhoneChar (c : Char) : Bool :=
  c.isDigit || c = ' ' || c = '\t' || c = '\n' || c = '\r' || c = '-' ||
    c = '(' || c = ')'

/-- The permissive phone regex of `validateField`: an optional leading
`+` followed by one or more characters of the class above. -/
def phoneOk (s : String) : Bool :=
  match s.data with
  | '+' :: rest => !rest.isEmpty && rest.all isPhoneChar
  | rest => !rest.isEmpty && rest.all isPhoneChar

namespace Flexible

/-- The flexible component's `validateField`.  `urlOk` models success of
the environment's `new URL(value)` constructor and `numOk` models
`!isNaN(value)`; absent (`undefined`) values are represented by the
empty string, which branches identically. -/
def validateField (urlOk numOk : String → Bool) (field : CustomFormField)
    (value : String) : Option String :=
  if field.required && value.isEmpty then
    some (if field.errorText.isEmpty then "This field is required"
          else field.errorText)
  else if !field.required then none
  else
    match field.type' with
    | .url => if !urlOk value then some "Please enter a valid URL" else none
    | .number =>
      if !value.isEmpty && !numOk value then some "Please enter a valid number"
      else none
    | .phone =>
      if !value.isEmpty && !phoneOk value then
        some "Please enter a valid phone number"
      else none
    | _ => none

/-- Labels routed to the guest-data record rather than the form-data
record by `validateForm`. -/
def guestFieldLabels : List String := ["firstName", "lastName", "email"]

/-- The per-field value lookup of `validateForm`: guest fields read from
`guestData`, the rest from `formData`. -/
def fieldValue (guestData formData : String → String)
    (field : CustomFormField) : String :=
  if guestFieldLabels.contains field.labelText then guestData field.labelText
  else formData field.labelText

/-- The flexible component's `validateForm` over `allFields`: every field
is validated against its looked-up value; failures are recorded keyed by
the field's label, and `isValid` holds exactly when no failure was
recorded. -/
def validateForm (urlOk numOk : String → Bool)
    (allFields : List CustomFormField) (guestData formData : String → String) :
    FormValidation :=
  let errors := allFields.foldl
    (fun acc field =>
      match validateField urlOk numOk field
          (fieldValue guestData formData field) with
      | some e => acc ++ [(field.labelText, e)]
      | none => acc) []
  { isValid := errors.isEmpty, errors := errors }

end Flexible

/-! ### Booking submission, availability fetching, step control -/

/-- The flexible component's `BookingStep` enum. -/
inductive BookingStep where
  | date
  | customForm
  | guest
  | form
  | success
  | pending
  | error
deriving DecidableEq, Repr

/-- The booking-API response fields consulted by `makeBooking`. -/
structure BookingResponse where
  paymentURL : Option String
  status : String
deriving DecidableEq, Repr

/-- The component state touched by the handlers modelled here.
`locationHref` records an assignment to `window.location.href` (the
full-page redirect); `consoleErrors` records `console.error` output. -/
structure ComponentState where
  currentStep : BookingStep
  error : Option String
  submiting : Bool
  availableDates : List String
  consoleErrors : List String
  locationHref : Option String
deriving DecidableEq, Repr

/-- The truthiness test `response.paymentURL && response.paymentURL.length > 0`. -/
def paymentURLNonEmpty (r : BookingResponse) : Bool :=
  match r.paymentURL with
  | some url => url.length > 0
  | none => false

/-- The response branch of `makeBooking`, in source order: non-empty
`paymentURL` redirects (and performs no step transition); otherwise
status `confirmed` moves to `success`; otherwise status `pending` moves
to `pending`; any other status leaves the state unchanged. -/
def makeBookingResponseStep (s : ComponentState) (response : BookingResponse) :
    ComponentState :=
  if paymentURLNonEmpty response then { s with locationHref := response.paymentURL }
  else if response.status = "confirmed" then { s with currentStep := .success }
  else if response.status = "pending" then { s with currentStep := .pending }
  else s

/-- The flexible component's `makeBooking` as a state transformer.  The
guard returns unchanged state when no slot is selected; otherwise
`submiting` is raised and `error` cleared, the request outcome is
processed (`Except.error` is the catch branch), and the `finally` block
lowers `submiting`. -/
def makeBooking (s : ComponentState) (selectedTime : Option TimeSlotWithResource)
    (result : Except String BookingResponse) : ComponentState :=
  match selectedTime with
  | none => s
  | some _ =>
    let s1 := { s with submiting := true, error := none }
    let s2 :=
      match result with
      | .ok response => makeBookingResponseStep s1 response
      | .error err =>
        { s1 with error := some ("Failed to request booking: " ++ err) }
    { s2 with submiting := false }

/-- Code-unit comparison of two character lists, the order JavaScript's
default `Array.prototype.sort` uses on strings (all reachable date
strings are ASCII, where scalar values and UTF-16 units agree). -/
def charListLe : List Char → List Char → Bool
  | [], _ => true
  | _ :: _, [] => false
  | a :: as, b :: bs =>
    if a.toNat < b.toNat then true
    else if b.toNat < a.toNat then false
    else charListLe as bs

/-- String comparison used to model the default JavaScript sort. -/
def strLe (a b : String) : Bool := charListLe a.data b.data

/-- Stable insertion for the date sort. -/
def insertDate (x : String) : List String → List String
  | [] => [x]
  | y :: ys => if strLe y x then y :: insertDate x ys else x :: y :: ys

/-- The `.sort()` call on the deduplicated date strings. -/
def sortDates : List String → List String
  | [] => []
  | x :: xs => insertDate x (sortDates xs)

/-- The `[...new Set(allDates)]` spread: first occurrences, in order. -/
def dedupDatesAux (seen : List String) : List String → List String
  | [] => []
  | x :: xs =>
    if seen.contains x then dedupDatesAux seen xs
    else x :: dedupDatesAux (x :: seen) xs

/-- Deduplication of the flattened date list. -/
def dedupDates (l : List String) : List String := dedupDatesAux [] l

/-- The get-dates response: resource ids paired with their date-string
lists (`response.dates`). -/
abbrev DatesResponse := List (String × List String)

/-- The flexible component's `fetchAvailableDates` as a state
transformer.  The early guard empties the available dates; on success
the flattened, deduplicated, sorted dates are stored; the catch branch
logs to the console and empties the available dates — the component's
`error` state is not touched on either path. -/
def fetchAvailableDates (s : ComponentState) (companyID serviceID : String)
    (serviceLoaded : Bool) (result : Except String DatesResponse) :
    ComponentState :=
  if companyID = "" || serviceID = "" || !serviceLoaded then
    { s with availableDates := [] }
  else
    match result with
    | .ok response =>
      let allDates := (response.map Prod.snd).flatten
      { s with availableDates := sortDates (dedupDates allDates) }
    | .error err =>
      { s with
        availableDates := [],
        consoleErrors :=
          s.consoleErrors ++ ["Failed to load available dates: " ++ err] }

/-- Action taken by `proceedToNextStep`. -/
inductive StepAction where
  | setStep (step : BookingStep)
  | callMakeBooking
  | noAction
deriving DecidableEq, Repr

/-- The flexible component's `proceedToNextStep`.  From the selection
step (`date`): the form step is entered when guest mode is on or at
least one custom field is configured (`props.customForm.fields?.length >
0`), otherwise `makeBooking` is called directly.  From the form step the
submitter runs only when validation succeeded (`validation` is `none`
when the form ref is absent). -/
def proceedToNextStep (currentStep : BookingStep) (guestMode : Bool)
    (customFields : Option (List CustomFormField))
    (validation : Option FormValidation) : StepAction :=
  if currentStep = BookingStep.date then
    if guestMode || (customFields.getD []).length > 0 then .setStep .form
    else .callMakeBooking
  else if currentStep = BookingStep.form then
    match validation with
    | some v => if v.isValid then .callMakeBooking else .noAction
    | none => .noAction
  else .noAction

/-- The host's route registry: pairs of route id and route path
(`Object.entries(routes)` with `value.path`). -/
abbrev Routes := List (String × String)

/-- `getRouteId`: the id of the first registered route whose path equals
`path`, or the empty string. -/
def getRouteId (routes : Routes) (path : String) : String :=
  match routes.find? (fun entry => entry.2 == path) with
  | some entry => entry.1
  | none => ""

/-- `proceedToRoute`: resolve the target path to a route id, falling back
to the id of the `/` route when the lookup comes back empty; the result
is handed to the router's `navigate`. -/
def proceedToRoute (routes : Routes) (route : String) : String :=
  let routeId := getRouteId routes route
  if routeId = "" then getRouteId routes "/" else routeId

/-- The `useEffect` on `currentStep`: terminal steps trigger navigation
(to the confirmed route on `success`, the pending route on `pending`);
other steps have no navigation side effect. -/
def stepNavigationEffect (routes : Routes) (confirmedPath pendingPath : String)
    (step : BookingStep) : Option String :=
  if step = BookingStep.success then some (proceedToRoute routes confirmedPath)
  else if step = BookingStep.pending then some (proceedToRoute routes pendingPath)
  else none

/-! ### Claim theorems -/

/-- C3: for every booking-API response, `makeBooking` branches in
priority order — a non-empty `paymentURL` causes a full-page redirect to
it and no step transition; otherwise status `"confirmed"` sets the step
to Success; otherwise status `"pending"` sets the step to Pending. -/
theorem makeBooking_response_priority (s : ComponentState)
    (st : TimeSlotWithResource) (response : BookingResponse) :
    (paymentURLNonEmpty response = true →
      (makeBooking s (some st) (.ok response)).locationHref = response.paymentURL ∧
      (makeBooking s (some st) (.ok response)).currentStep = s.currentStep) ∧
    (paymentURLNonEmpty response = false → response.status = "confirmed" →
      (makeBooking s (some st) (.ok response)).currentStep = .success ∧
      (makeBooking s (some st) (.ok response)).locationHref = s.locationHref) ∧
    (paymentURLNonEmpty response = false → response.status ≠ "confirmed" →
      response.status = "pending" →
      (makeBooking s (some st) (.ok response)).currentStep = .pending ∧
      (makeBooking s (some st) (.ok response)).locationHref = s.locationHref) := by
  refine ⟨?_, ?_, ?_⟩
  · intro hpay
    simp [makeBooking, makeBookingResponseStep, hpay]
  · intro hpay hconf
    simp [makeBooking, makeBookingResponseStep, hpay, hconf]
  · intro hpay hnconf hpend
    simp [makeBooking, makeBookingResponseStep, hpay, hnconf, hpend]

/-- Witness for C3: a response with payment URL and confirmed status
redirects without a step transition. -/
theorem makeBooking_response_priority_witness :
    (makeBooking
        { currentStep := .date, error := none, submiting := false,
          availableDates := [], consoleErrors := [], locationHref := none }
        (some { timeSlot := { startTime := 0, endTime := 0 }, resourceID := "r" })
        (.ok { paymentURL := some "https://pay.example", status := "confirmed" })).locationHref
        = some "https://pay.example" ∧
    (makeBooking
        { currentStep := .date, error := none, submiting := false,
          availableDates := [], consoleErrors := [], locationHref := none }
        (some { timeSlot := { startTime := 0, endTime := 0 }, resourceID := "r" })
        (.ok { paymentURL := some "https://pay.example", status := "confirmed" })).currentStep
        = .date :=
  (makeBooking_response_priority
    { currentStep := .date, error := none, submiting := false,
      availableDates := [], consoleErrors := [], locationHref := none }
    { timeSlot := { startTime := 0, endTime := 0 }, resourceID := "r" }
    { paymentURL := some "https://pay.example", status := "confirmed" }).1
    (by decide)

/-- C5: every failure of the booking request is caught, retained as an
error string in state, and neither advances the step nor navigates. -/
theorem makeBooking_failure_keeps_step (s : ComponentState)
    (st : TimeSlotWithResource) (err : String) :
    (makeBooking s (some st) (.error err)).error
        = some ("Failed to request booking: " ++ err) ∧
    (makeBooking s (some st) (.error err)).currentStep = s.currentStep ∧
    (makeBooking s (some st) (.error err)).locationHref = s.locationHref := by
  simp [makeBooking]

/-- C6 counterexample: when the availability fetch rejects, the
available-dates set becomes empty but no error string is set in the
component state (the `error` field stays `none`); the failure is only
logged to the console. -/
theorem fetchAvailableDates_failure_sets_no_error :
    (fetchAvailableDates
        { currentStep := .date, error := none, submiting := false,
          availableDates := ["2024-06-01"], consoleErrors := [],
          locationHref := none }
        "c" "s" true (.error "network down")).availableDates = [] ∧
    (fetchAvailableDates
        { currentStep := .date, error := none, submiting := false,
          availableDates := ["2024-06-01"], consoleErrors := [],
          locationHref := none }
        "c" "s" true (.error "network down")).error = none := by
  constructor
  · rfl
  · rfl

/-- C6 amended: when the availability fetch rejects, the fetcher catches
the failure, resets the available-dates set to empty and logs an error
message to the console; the component's `error` state, current step and
location are unchanged, so the widget stays interactive. -/
theorem fetchAvailableDates_failure_spec (s : ComponentState)
    (companyID serviceID err : String) (hc : companyID ≠ "")
    (hs : serviceID ≠ "") :
    (fetchAvailableDates s companyID serviceID true (.error err)).availableDates
        = [] ∧
    (fetchAvailableDates s companyID serviceID true (.error err)).consoleErrors
        = s.consoleErrors ++ ["Failed to load available dates: " ++ err] ∧
    (fetchAvailableDates s companyID serviceID true (.error err)).error
        = s.error ∧
    (fetchAvailableDates s companyID serviceID true (.error err)).currentStep
        = s.currentStep ∧
    (fetchAvailableDates s companyID serviceID true (.error err)).locationHref
        = s.locationHref := by
  simp [fetchAvailableDates, hc, hs]

/-- Witness for the amended C6 theorem at a concrete state and failure. -/
theorem fetchAvailableDates_failure_spec_witness :
    (fetchAvailableDates
        { currentStep := .date, error := none, submiting := false,
          availableDates := ["2024-06-01"], consoleErrors := [],
          locationHref := none }
        "company" "service" true (.error "boom")).availableDates = [] ∧
    (fetchAvailableDates
        { currentStep := .date, error := none, submiting := false,
          availableDates := ["2024-06-01"], consoleErrors := [],
          locationHref := none }
        "company" "service" true (.error "boom")).consoleErrors
        = [] ++ ["Failed to load available dates: " ++ "boom"] ∧
    (fetchAvailableDates
        { currentStep := .date, error := none, submiting := false,
          availableDates := ["2024-06-01"], consoleErrors := [],
          locationHref := none }
        "company" "service" true (.error "boom")).error = none ∧
    (fetchAvailableDates
        { currentStep := .date, error := none, submiting := false,
          availableDates := ["2024-06-01"], consoleErrors := [],
          locationHref := none }
        "company" "service" true (.error "boom")).currentStep = .date ∧
    (fetchAvailableDates
        { currentStep := .date, error := none, submiting := false,
          availableDates := ["2024-06-01"], consoleErrors := [],
          locationHref := none }
        "company" "service" true (.error "boom")).locationHref = none :=
  fetchAvailableDates_failure_spec
    { currentStep := .date, error := none, submiting := false,
      availableDates := ["2024-06-01"], consoleErrors := [],
      locationHref := none }
    "company" "service" "boom" (by decide) (by decide)

/-- C7: from the selection step, `proceedToNextStep` skips the form step
and calls the submitter directly exactly when neither guest mode is on
nor any custom field is configured; otherwise it moves to the form
step. -/
theorem proceedToNextStep_selection (guestMode : Bool)
    (customFields : Option (List CustomFormField))
    (validation : Option FormValidation) :
    (guestMode = false → customFields.getD [] = [] →
      proceedToNextStep .date guestMode customFields validation
        = .callMakeBooking) ∧
    (guestMode = true ∨ 0 < (customFields.getD []).length →
      proceedToNextStep .date guestMode customFields validation
        = .setStep .form) := by
  constructor
  · intro hg hf
    simp [proceedToNextStep, hg, hf]
  · intro h
    rcases h with hg | hf
    · simp [proceedToNextStep, hg]
    · simp [proceedToNextStep, hf, Nat.pos_iff_ne_zero.mp hf]

/-- Witness for C7: no guest mode and no custom fields goes straight to
the submitter, and a single custom field routes through the form step. -/
theorem proceedToNextStep_selection_witness :
    proceedToNextStep .date false none none = .callMakeBooking ∧
    proceedToNextStep .date false
        (some [{ type' := .text, required := true, labelText := "a",
                 errorText := "" }]) none
      = .setStep .form :=
  ⟨(proceedToNextStep_selection false none none).1 rfl rfl,
    (proceedToNextStep_selection false
        (some [{ type' := .text, required := true, labelText := "a",
                 errorText := "" }]) none).2 (Or.inr (by decide))⟩

/-- C8: the step effect navigates on the terminal steps — to the pending
route's id for Pending and the confirmed route's id for Success; the
target path resolves to the id of the first route registered with that
path, and the `/` route's id is used only when the path is not
registered (route ids are the registry's non-empty keys). -/
theorem stepNavigation_terminal_routes (routes : Routes)
    (confirmedPath pendingPath : String)
    (hkeys : ∀ e ∈ routes, e.1 ≠ "") :
    (stepNavigationEffect routes confirmedPath pendingPath .pending
        = some (proceedToRoute routes pendingPath)) ∧
    (stepNavigationEffect routes confirmedPath pendingPath .success
        = some (proceedToRoute routes confirmedPath)) ∧
    (∀ path, (∃ e ∈ routes, e.2 = path) →
      ∃ e ∈ routes, e.2 = path ∧ proceedToRoute routes path = e.1) ∧
    (∀ path, (∀ e ∈ routes, e.2 ≠ path) →
      proceedToRoute routes path = getRouteId routes "/") := by
  refine ⟨rfl, rfl, ?_, ?_⟩
  · intro path hex
    have hsome : (routes.find? (fun entry => entry.2 == path)).isSome := by
      rw [List.find?_isSome]
      obtain ⟨e, he, hpath⟩ := hex
      exact ⟨e, he, by simp [hpath]⟩
    obtain ⟨e, he⟩ := Option.isSome_iff_exists.mp hsome
    have hmem := List.mem_of_find?_eq_some he
    have hpath : e.2 = path := by
      have := List.find?_some he
      simpa using this
    refine ⟨e, hmem, hpath, ?_⟩
    simp only [proceedToRoute, getRouteId, he]
    simp [hkeys e hmem]
  · intro path hnone
    have : routes.find? (fun entry => entry.2 == path) = none := by
      rw [List.find?_eq_none]
      intro e he
      simp [hnone e he]
    simp [proceedToRoute, getRouteId, this]

/-- Witness for C8 on a concrete registry: Pending navigates to the id
registered for the pending path. -/
theorem stepNavigation_terminal_routes_witness :
    (stepNavigationEffect [("abc", "/pending-page"), ("home", "/")]
        "/done" "/pending-page" .pending
      = some (proceedToRoute [("abc", "/pending-page"), ("home", "/")]
        "/pending-page")) ∧
    (∃ e ∈ [("abc", "/pending-page"), ("home", "/")],
      e.2 = "/pending-page" ∧
      proceedToRoute [("abc", "/pending-page"), ("home", "/")] "/pending-page"
        = e.1) :=
  ⟨(stepNavigation_terminal_routes [("abc", "/pending-page"), ("home", "/")]
      "/done" "/pending-page" (by decide)).1,
    (stepNavigation_terminal_routes [("abc", "/pending-page"), ("home", "/")]
      "/done" "/pending-page" (by decide)).2.2.1 "/pending-page"
      ⟨("abc", "/pending-page"), by decide, rfl⟩⟩

/-- C9: in the rental component, every selected range shorter than 24
hours is stopped by the hard-coded minimum-duration gate of
`checkSlotAvailability`: the result is `blocked` (selected slot set to
null) for every possible times response, i.e. before the times API is
consulted. -/
theorem checkSlotAvailability_min_duration_gate (startMs endMs : Int)
    (times : TimesResponse) (h : endMs - startMs < 86400000) :
    Rental.checkSlotAvailability startMs endMs times = .blocked := by
  have f60000 : ∀ a : Int, Int.fdiv a 60000 = a / 60000 :=
    fun a => Int.fdiv_eq_ediv a (by decide)
  have f60 : ∀ a : Int, Int.fdiv a 60 = a / 60 :=
    fun a => Int.fdiv_eq_ediv a (by decide)
  have f24 : ∀ a : Int, Int.fdiv a 24 = a / 24 :=
    fun a => Int.fdiv_eq_ediv a (by decide)
  have key : Rental.totalHours (Rental.calculateDuration startMs endMs) < 24 := by
    simp only [Rental.totalHours, Rental.calculateDuration, f60000, f60, f24]
    set t : Int := (endMs - startMs) / 60000 with ht
    set hh : Int := t / 60 with hhdef
    have hm : Int.tmod t 60 < 60 := Int.tmod_lt_of_pos t (by decide)
    have hh24 : Int.tmod hh 24 < 24 := Int.tmod_lt_of_pos hh (by decide)
    have hint : hh / 24 * 1440 + Int.tmod hh 24 * 60 + Int.tmod t 60 < 1440 := by
      rcases le_or_lt 0 t with ht0 | ht0
      · have hh0 : 0 ≤ hh := Int.ediv_nonneg ht0 (by decide)
        rw [Int.tmod_eq_emod ht0 (by decide), Int.tmod_eq_emod hh0 (by decide)]
        omega
      · omega
    have hcast : ((hh / 24 : Int) : ℚ) * 1440 + ((Int.tmod hh 24 : Int) : ℚ) * 60
        + ((Int.tmod t 60 : Int) : ℚ) < 1440 := by exact_mod_cast hint
    linarith
  simp [Rental.checkSlotAvailability, key]

/-- Witness for C9: a one-hour range is blocked by the gate. -/
theorem checkSlotAvailability_min_duration_gate_witness :
    (3600000 : Int) - 0 < 86400000 ∧
    Rental.checkSlotAvailability 0 3600000
        [("r1", [{ startTime := 0, endTime := 3600000 }])] = .blocked :=
  ⟨by decide,
    checkSlotAvailability_min_duration_gate 0 3600000
      [("r1", [{ startTime := 0, endTime := 3600000 }])] (by decide)⟩

/-- On a list sorted by ascending start time, `find?` returns a slot
whose start time is minimal among all slots satisfying the predicate. -/
theorem find?_first_sorted_le (p : TimeSlot → Bool) (l : List TimeSlot)
    (s : TimeSlot)
    (hsort : List.Pairwise (fun a b : TimeSlot => a.startTime ≤ b.startTime) l)
    (hfind : l.find? p = some s) :
    ∀ s' ∈ l, p s' = true → s.startTime ≤ s'.startTime := by
  induction l with
  | nil => simp at hfind
  | cons x xs ih =>
    cases hpx : p x with
    | true =>
      rw [List.find?_cons_of_pos _ hpx] at hfind
      obtain rfl : x = s := by injection hfind
      intro s' hmem hp
      rcases List.mem_cons.mp hmem with rfl | hmem'
      · exact le_refl _
      · exact (List.pairwise_cons.mp hsort).1 s' hmem'
    | false =>
      rw [List.find?_cons_of_neg _ (by simp [hpx])] at hfind
      intro s' hmem hp
      rcases List.mem_cons.mp hmem with rfl | hmem'
      · exact absurd hp (by simp [hpx])
      · exact ih (List.pairwise_cons.mp hsort).2 hfind s' hmem' hp

/-- C1 counterexample: a times response whose per-resource slot lists are
sorted by start time (here singletons), where the matcher returns the
first resource's slot starting 30 seconds after the requested instant
although the second resource offers a slot within tolerance starting 60
seconds earlier — the matcher does not return the earliest-starting slot
within the 1-minute window, and performs no sorting before scanning. -/
theorem findMatchingSlot_not_earliest :
    (∀ p ∈ ([("r1", [({ startTime := 30000, endTime := 86430000 } : TimeSlot)]),
             ("r2", [({ startTime := -30000, endTime := 86370000 } : TimeSlot)])] :
             TimesResponse),
      List.Pairwise (fun a b : TimeSlot => a.startTime ≤ b.startTime) p.2) ∧
    Rental.findMatchingSlot
        [("r1", [{ startTime := 30000, endTime := 86430000 }]),
         ("r2", [{ startTime := -30000, endTime := 86370000 }])] 0
      = some { timeSlot := { startTime := 30000, endTime := 86430000 },
               resourceID := "r1" } ∧
    (((-30000 : Int) - 0).natAbs < 60000) ∧
    ((-30000 : Int) < 30000) := by
  refine ⟨by decide, by decide, by decide, by decide⟩

/-- C1 amended: the matcher scans resources in API response order and,
within each resource, slots in their listed order, selecting the first
slot within one minute (strictly less than 60000 ms) of the requested
start; it returns none exactly when no slot of any resource is within
tolerance.  When the per-resource lists are sorted by start time, the
selected slot is the earliest-starting in-tolerance slot of the first
resource that has one — not necessarily the globally earliest across
resources — and no sorting is performed before the scan. -/
theorem findMatchingSlot_scan_order (times : TimesResponse) (startMs : Int)
    (hsorted : ∀ p ∈ times,
      List.Pairwise (fun a b : TimeSlot => a.startTime ≤ b.startTime) p.2) :
    (Rental.findMatchingSlot times startMs = none ↔
      ∀ p ∈ times, ∀ s ∈ p.2, ¬ ((s.startTime - startMs).natAbs < 60000)) ∧
    (∀ slot rid,
      Rental.findMatchingSlot times startMs
          = some { timeSlot := slot, resourceID := rid } →
      ∃ pre slots post, times = pre ++ (rid, slots) :: post ∧
        slot ∈ slots ∧ (slot.startTime - startMs).natAbs < 60000 ∧
        (∀ p ∈ pre, ∀ s ∈ p.2, ¬ ((s.startTime - startMs).natAbs < 60000)) ∧
        (∀ s ∈ slots, (s.startTime - startMs).natAbs < 60000 →
          slot.startTime ≤ s.startTime)) := by
  induction times with
  | nil =>
    constructor
    · simp [Rental.findMatchingSlot]
    · intro slot rid h
      simp [Rental.findMatchingSlot] at h
  | cons hd rest ih =>
    obtain ⟨rid0, slots0⟩ := hd
    have hsort0 : List.Pairwise (fun a b : TimeSlot => a.startTime ≤ b.startTime)
        slots0 := hsorted _ (List.mem_cons_self _ _)
    have ih' := ih (fun p hp => hsorted p (List.mem_cons_of_mem _ hp))
    cases hfind : slots0.find?
        (fun slot => decide ((slot.startTime - startMs).natAbs < 60000)) with
    | some s0 =>
      have hmem0 : s0 ∈ slots0 := List.mem_of_find?_eq_some hfind
      have hp0 : (s0.startTime - startMs).natAbs < 60000 := by
        have := List.find?_some hfind
        simpa using this
      constructor
      · refine iff_of_false ?_ ?_
        · simp [Rental.findMatchingSlot, hfind]
        · intro hall
          exact hall _ (List.mem_cons_self _ _) s0 hmem0 hp0
      · intro slot rid heq
        simp only [Rental.findMatchingSlot, hfind] at heq
        obtain ⟨h1, h2⟩ : s0 = slot ∧ rid0 = rid := by
          have := Option.some.inj heq
          exact ⟨congrArg TimeSlotWithResource.timeSlot this,
            congrArg TimeSlotWithResource.resourceID this⟩
        subst h1; subst h2
        refine ⟨[], slots0, rest, by simp, hmem0, hp0, by simp, ?_⟩
        intro s' hmem' hp'
        exact find?_first_sorted_le _ _ _ hsort0 hfind s' hmem' (by simpa using hp')
    | none =>
      have hnone : ∀ s ∈ slots0, ¬ ((s.startTime - startMs).natAbs < 60000) := by
        intro s hs
        have := List.find?_eq_none.mp hfind s hs
        simpa using this
      constructor
      · simp only [Rental.findMatchingSlot, hfind]
        rw [ih'.1]
        constructor
        · intro h p hp
          rcases List.mem_cons.mp hp with rfl | hp'
          · exact hnone
          · exact h p hp'
        · intro h p hp
          exact h p (List.mem_cons_of_mem _ hp)
      · intro slot rid heq
        simp only [Rental.findMatchingSlot, hfind] at heq
        obtain ⟨pre, slots, post, hsplit, hmem, hp, hpre, hmin⟩ :=
          ih'.2 slot rid heq
        refine ⟨(rid0, slots0) :: pre, slots, post, by simp [hsplit], hmem, hp,
          ?_, hmin⟩
        intro p hp'
        rcases List.mem_cons.mp hp' with rfl | hp''
        · exact hnone
        · exact hpre p hp''

/-- Witness for the amended C1 theorem: with sorted per-resource lists,
the matcher skips the out-of-tolerance first resource and picks the
first in-tolerance slot of the second. -/
theorem findMatchingSlot_scan_order_witness :
    ∃ pre slots post,
      ([("a", [({ startTime := 100000, endTime := 200000 } : TimeSlot)]),
        ("b", [({ startTime := -10000, endTime := 80000 } : TimeSlot),
               ({ startTime := 5000, endTime := 90000 } : TimeSlot)])] :
          TimesResponse)
        = pre ++ ("b", slots) :: post ∧
      ({ startTime := -10000, endTime := 80000 } : TimeSlot) ∈ slots ∧
      ((({ startTime := -10000, endTime := 80000 } : TimeSlot)).startTime - 0).natAbs
          < 60000 ∧
      (∀ p ∈ pre, ∀ s ∈ p.2, ¬ ((s.startTime - (0 : Int)).natAbs < 60000)) ∧
      (∀ s ∈ slots, (s.startTime - (0 : Int)).natAbs < 60000 →
        (({ startTime := -10000, endTime := 80000 } : TimeSlot)).startTime
          ≤ s.startTime) :=
  (findMatchingSlot_scan_order
      [("a", [{ startTime := 100000, endTime := 200000 }]),
       ("b", [{ startTime := -10000, endTime := 80000 },
              { startTime := 5000, endTime := 90000 }])] 0 (by decide)).2
    { startTime := -10000, endTime := 80000 } "b" (by decide)

/-- C2 counterexample: with a URL parser on which the value fails to
parse, a non-required field of type `url` holding that value produces no
error (`validateField` returns before the type-specific rules for every
non-required field), while the same field marked required does produce
the URL error — the claim that a `url` field with a non-parsing value
always errors is false. -/
theorem validateField_optional_url_no_error :
    Flexible.validateField (fun _ => false) (fun _ => true)
        { type' := .url, required := false, labelText := "website",
          errorText := "" } "not a url" = none ∧
    Flexible.validateField (fun _ => false) (fun _ => true)
        { type' := .url, required := true, labelText := "website",
          errorText := "" } "not a url" = some "Please enter a valid URL" :=
  ⟨rfl, rfl⟩

/-- The error list built by `validateForm`'s fold is the label-keyed
image of the fields that fail `validateField`. -/
theorem validateForm_errors_eq (urlOk numOk : String → Bool)
    (allFields : List CustomFormField) (guestData formData : String → String) :
    (Flexible.validateForm urlOk numOk allFields guestData formData).errors =
      allFields.filterMap (fun field =>
        (Flexible.validateField urlOk numOk field
            (Flexible.fieldValue guestData formData field)).map
          (fun e => (field.labelText, e))) := by
  have key : ∀ (fs : List CustomFormField) (acc : List (String × String)),
      fs.foldl (fun acc field =>
        match Flexible.validateField urlOk numOk field
            (Flexible.fieldValue guestData formData field) with
        | some e => acc ++ [(field.labelText, e)]
        | none => acc) acc
        = acc ++ fs.filterMap (fun field =>
            (Flexible.validateField urlOk numOk field
                (Flexible.fieldValue guestData formData field)).map
              (fun e => (field.labelText, e))) := by
    intro fs
    induction fs with
    | nil => intro acc; simp
    | cons f fs ih =>
      intro acc
      cases h : Flexible.validateField urlOk numOk f
          (Flexible.fieldValue guestData formData f) with
      | some e => simp [h, ih, List.filterMap_cons]
      | none => simp [h, ih, List.filterMap_cons]
  simpa using key allFields []

/-- C2 amended: a field produces an error exactly when it is required
and its value is empty, or it is required, non-empty, and fails its
type-specific rule (`url` not parsing, `number` not parsing, `phone`
failing the permissive pattern); non-required fields never produce an
error, whatever their value — the type-specific rules apply only to
required fields.  `validateForm` records each failure keyed by the
failing field's label. -/
theorem validateField_validateForm_spec (urlOk numOk : String → Bool) :
    (∀ (field : CustomFormField) (value : String), field.required = false →
      Flexible.validateField urlOk numOk field value = none) ∧
    (∀ (field : CustomFormField), field.required = true →
      Flexible.validateField urlOk numOk field ""
        = some (if field.errorText.isEmpty then "This field is required"
                else field.errorText)) ∧
    (∀ (field : CustomFormField) (value : String), field.required = true →
      value ≠ "" →
      ((Flexible.validateField urlOk numOk field value).isSome ↔
        (field.type' = .url ∧ urlOk value = false) ∨
        (field.type' = .number ∧ numOk value = false) ∨
        (field.type' = .phone ∧ phoneOk value = false))) ∧
    (∀ allFields guestData formData,
      (Flexible.validateForm urlOk numOk allFields guestData formData).errors =
        allFields.filterMap (fun field =>
          (Flexible.validateField urlOk numOk field
              (Flexible.fieldValue guestData formData field)).map
            (fun e => (field.labelText, e)))) := by
  refine ⟨?_, ?_, ?_, validateForm_errors_eq urlOk numOk⟩
  · intro field value hreq
    simp [Flexible.validateField, hreq]
  · intro field hreq
    have h0 : ("" : String).isEmpty = true := rfl
    simp [Flexible.validateField, hreq, h0]
  · intro field value hreq hval
    have hv : value.isEmpty = false := by
      rcases h : value.isEmpty with _ | _
      · rfl
      · exact absurd ((String.isEmpty_iff value).mp h) hval
    obtain ⟨ftype, freq, flabel, ferr⟩ := field
    simp only at hreq
    subst hreq
    cases ftype <;>
      simp only [Flexible.validateField, hv, Bool.true_and, Bool.not_true,
        Bool.false_eq_true, if_false, Bool.not_false, if_true] <;>
      (cases h : urlOk value <;> simp [h])

/-- Witness for the amended C2 theorem: a non-required url field with an
unparsable value passes, a required empty text field errors with its
configured message, and a required url field with an unparsable value
errors. -/
theorem validateField_validateForm_spec_witness :
    Flexible.validateField (fun _ => false) (fun _ => true)
        { type' := .url, required := false, labelText := "w", errorText := "" }
        "x" = none ∧
    Flexible.validateField (fun _ => false) (fun _ => true)
        { type' := .text, required := true, labelText := "n",
          errorText := "Name is required" } ""
      = some (if ("Name is required" : String).isEmpty then
                "This field is required" else "Name is required") ∧
    ((Flexible.validateField (fun _ => false) (fun _ => true)
        { type' := .url, required := true, labelText := "w", errorText := "" }
        "x").isSome ↔
      ((FieldType.url = FieldType.url ∧ (fun (_ : String) => false) "x" = false) ∨
       (FieldType.url = FieldType.number ∧ (fun (_ : String) => true) "x" = false) ∨
       (FieldType.url = FieldType.phone ∧ phoneOk "x" = false))) :=
  ⟨(validateField_validateForm_spec (fun _ => false) (fun _ => true)).1
      { type' := .url, required := false, labelText := "w", errorText := "" }
      "x" rfl,
    (validateField_validateForm_spec (fun _ => false) (fun _ => true)).2.1
      { type' := .text, required := true, labelText := "n",
        errorText := "Name is required" } rfl,
    (validateField_validateForm_spec (fun _ => false) (fun _ => true)).2.2.1
      { type' := .url, required := true, labelText := "w", errorText := "" }
      "x" rfl (by decide)⟩

/-- A digit below ten renders to a digit character. -/
theorem digitChar_isDigit {d : Nat} (h : d < 10) : (digitChar d).isDigit = true := by
  interval_cases d <;> decide

/-- Code point of a rendered digit. -/
theorem digitChar_toNat {d : Nat} (h : d < 10) : (digitChar d).toNat = 48 + d := by
  interval_cases d <;> decide

/-- Parsing the rendering of `n` (with enough fuel) consumes exactly its
digits, shifting any previously accumulated value past them. -/
theorem parseNatAux_natCharsAux (fuel : Nat) :
    ∀ n, n < fuel → ∀ (rest : List Char) (acc : Nat),
      ∃ k, 0 < k ∧
        parseNatAux (natCharsAux fuel n ++ rest) acc
          = parseNatAux rest (acc * 10 ^ k + n) := by
  induction fuel with
  | zero => intro n h; exact absurd h (Nat.not_lt_zero n)
  | succ fuel ih =>
    intro n hn rest acc
    by_cases h10 : n < 10
    · refine ⟨1, Nat.one_pos, ?_⟩
      simp only [natCharsAux, if_pos h10, List.cons_append, List.nil_append,
        parseNatAux, digitChar_isDigit h10, digitChar_toNat h10, if_true]
      congr 1
      omega
    · push_neg at h10
      have hdiv : n / 10 < fuel := by omega
      have hm : n % 10 < 10 := Nat.mod_lt _ (by omega)
      obtain ⟨k, hk, hrec⟩ := ih (n / 10) hdiv (digitChar (n % 10) :: rest) acc
      refine ⟨k + 1, by omega, ?_⟩
      simp only [natCharsAux, if_neg (by omega : ¬ n < 10), List.append_assoc,
        List.cons_append, List.nil_append]
      rw [hrec]
      simp only [parseNatAux, digitChar_isDigit hm, digitChar_toNat hm, if_true]
      congr 1
      have hsplit : 10 * (n / 10) + n % 10 = n := Nat.div_add_mod n 10
      have h48 : 48 + n % 10 - 48 = n % 10 := by omega
      rw [h48, pow_succ]
      ring_nf
      omega


/-- Parsing the rendering of `n` from an empty accumulator yields `n`. -/
theorem parseNatAux_natChars (n : Nat) (rest : List Char) :
    parseNatAux (natChars n ++ rest) 0 = parseNatAux rest n := by
  obtain ⟨k, hk, he⟩ :=
    parseNatAux_natCharsAux (n + 1) n (Nat.lt_succ_self n) rest 0
  simpa [natChars] using he

/-- The spec's parser reads back any `PT<h>H<m>M` string the components
build. -/
theorem parseISOMinutes_build (h m : Nat) :
    parseISOMinutes ("PT" ++ natStr h ++ "H" ++ natStr m ++ "M")
      = some (h * 60 + m) := by
  have hPT : ("PT" : String).data = ['P', 'T'] := rfl
  have hHs : ("H" : String).data = ['H'] := rfl
  have hMs : ("M" : String).data = ['M'] := rfl
  have hdata : ("PT" ++ natStr h ++ "H" ++ natStr m ++ "M").data
      = 'P' :: 'T' :: (natChars h ++ ('H' :: (natChars m ++ ['M']))) := by
    simp [natStr, String.data_append, hPT, hHs, hMs]
  have hHd : ('H' : Char).isDigit = false := rfl
  have hMd : ('M' : Char).isDigit = false := rfl
  have h1 : parseNatAux (natChars h ++ ('H' :: (natChars m ++ ['M']))) 0
      = (h, 'H' :: (natChars m ++ ['M'])) := by
    rw [parseNatAux_natChars]
    simp [parseNatAux, hHd]
  have h2 : parseNatAux (natChars m ++ ['M']) 0 = (m, ['M']) := by
    rw [parseNatAux_natChars]
    simp [parseNatAux, hMd]
  simp only [parseISOMinutes, hdata, h1, h2]

/-- C4 counterexample: the flexible component's `durationToISO` drops the
`days` component, so the duration of one day renders as `PT0H0M`, which
reads back as 0 minutes instead of the 1440 minutes of the input. -/
theorem durationToISO_flexible_drops_days :
    Flexible.durationToISO { days := 1, hours := 0, minutes := 0 } = "PT0H0M" ∧
    parseISOMinutes "PT0H0M" = some 0 ∧
    Duration.totalMinutes { days := 1, hours := 0, minutes := 0 } = 1440 := by
  refine ⟨by decide, by decide, by decide⟩

/-- C4 amended: the rental component's `durationToISO` round-trips to the
input's total minutes for every duration (it folds days into the hour
figure), while the flexible component's variant round-trips exactly when
the `days` component is zero; the duration of 1 hour 30 minutes renders
as `PT1H30M` under both. -/
theorem durationToISO_roundTrip :
    (∀ d : Duration,
      parseISOMinutes (Rental.durationToISO d) = some d.totalMinutes) ∧
    (∀ d : Duration,
      parseISOMinutes (Flexible.durationToISO d) = some d.totalMinutes ↔
        d.days = 0) ∧
    Rental.durationToISO { days := 0, hours := 1, minutes := 30 } = "PT1H30M" ∧
    Flexible.durationToISO { days := 0, hours := 1, minutes := 30 } = "PT1H30M" := by
  refine ⟨?_, ?_, by decide, by decide⟩
  · intro d
    have hb := parseISOMinutes_build (d.days * 24 + d.hours) d.minutes
    simp only [Rental.durationToISO, Duration.totalMinutes, hb]
    exact congrArg some (by ring)
  · intro d
    have hb := parseISOMinutes_build d.hours d.minutes
    simp only [Flexible.durationToISO, Duration.totalMinutes, hb,
      Option.some.injEq]
    omega

/-- Inserting permutes with consing. -/
theorem insertSlot_perm (x : TimeSlotWithResource) (l : List TimeSlotWithResource) :
    (Flexible.insertSlot x l).Perm (x :: l) := by
  induction l with
  | nil => exact List.Perm.refl _
  | cons y ys ih =>
    by_cases h : y.timeSlot.startTime ≤ x.timeSlot.startTime
    · simp only [Flexible.insertSlot, if_pos h]
      exact (ih.cons y).trans (List.Perm.swap x y ys)
    · simp only [Flexible.insertSlot, if_neg h]
      exact List.Perm.refl _

/-- The sort of `formatSlots` permutes its input. -/
theorem sortSlots_perm (l : List TimeSlotWithResource) :
    (Flexible.sortSlots l).Perm l := by
  induction l with
  | nil => exact List.Perm.refl _
  | cons x xs ih =>
    exact (insertSlot_perm x (Flexible.sortSlots xs)).trans (ih.cons x)

/-- Inserting into a list sorted by start time keeps it sorted. -/
theorem insertSlot_sorted (x : TimeSlotWithResource)
    (l : List TimeSlotWithResource)
    (hl : l.Pairwise (fun a b => a.timeSlot.startTime ≤ b.timeSlot.startTime)) :
    (Flexible.insertSlot x l).Pairwise
      (fun a b => a.timeSlot.startTime ≤ b.timeSlot.startTime) := by
  induction l with
  | nil => simp [Flexible.insertSlot]
  | cons y ys ih =>
    obtain ⟨hy, hys⟩ := List.pairwise_cons.mp hl
    by_cases h : y.timeSlot.startTime ≤ x.timeSlot.startTime
    · simp only [Flexible.insertSlot, if_pos h]
      refine List.pairwise_cons.mpr ⟨?_, ih hys⟩
      intro z hz
      rcases List.mem_cons.mp (((insertSlot_perm x ys).mem_iff).mp hz) with rfl | hz'
      · exact h
      · exact hy z hz'
    · simp only [Flexible.insertSlot, if_neg h]
      refine List.pairwise_cons.mpr ⟨?_, hl⟩
      intro z hz
      have hxy : x.timeSlot.startTime ≤ y.timeSlot.startTime :=
        le_of_not_le h
      rcases List.mem_cons.mp hz with rfl | hz'
      · exact hxy
      · exact hxy.trans (hy z hz')

/-- The sort of `formatSlots` sorts by ascending start time. -/
theorem sortSlots_sorted (l : List TimeSlotWithResource) :
    (Flexible.sortSlots l).Pairwise
      (fun a b => a.timeSlot.startTime ≤ b.timeSlot.startTime) := by
  induction l with
  | nil => simp [Flexible.sortSlots]
  | cons x xs ih => exact insertSlot_sorted x _ ih

/-- The dedupe step yields a sublist of its input. -/
theorem keepFirstAux_sublist (key : TimeSlotWithResource → String) :
    ∀ (seen : List String) (l : List TimeSlotWithResource),
      (Flexible.keepFirstAux key seen l).Sublist l := by
  intro seen l
  induction l generalizing seen with
  | nil => simp [Flexible.keepFirstAux]
  | cons z zs ih =>
    by_cases h : seen.contains (key z)
    · simp only [Flexible.keepFirstAux, if_pos h]
      exact (ih seen).cons z
    · simp only [Flexible.keepFirstAux, if_neg h]
      exact (ih (key z :: seen)).cons₂ z

/-- Members of the dedupe step come from the input and carry keys not yet
seen. -/
theorem mem_keepFirstAux (key : TimeSlotWithResource → String) :
    ∀ (seen : List String) (l : List TimeSlotWithResource)
      (y : TimeSlotWithResource), y ∈ Flexible.keepFirstAux key seen l →
      y ∈ l ∧ seen.contains (key y) = false := by
  intro seen l
  induction l generalizing seen with
  | nil => simp [Flexible.keepFirstAux]
  | cons z zs ih =>
    intro y hy
    by_cases h : seen.contains (key z)
    · simp only [Flexible.keepFirstAux, if_pos h] at hy
      obtain ⟨h1, h2⟩ := ih seen y hy
      exact ⟨List.mem_cons_of_mem _ h1, h2⟩
    · simp only [Flexible.keepFirstAux, if_neg h] at hy
      rcases List.mem_cons.mp hy with rfl | hy'
      · exact ⟨List.mem_cons_self _ _, by simpa using h⟩
      · obtain ⟨h1, h2⟩ := ih (key z :: seen) y hy'
        rw [List.contains_cons] at h2
        exact ⟨List.mem_cons_of_mem _ h1, by
          rcases Bool.or_eq_false_iff.mp h2 with ⟨_, hb⟩
          exact hb⟩

/-- The dedupe step keeps at most one element of each key. -/
theorem keepFirstAux_pairwise (key : TimeSlotWithResource → String) :
    ∀ (seen : List String) (l : List TimeSlotWithResource),
      (Flexible.keepFirstAux key seen l).Pairwise
        (fun a b => key a ≠ key b) := by
  intro seen l
  induction l generalizing seen with
  | nil => simp [Flexible.keepFirstAux]
  | cons z zs ih =>
    by_cases h : seen.contains (key z)
    · simp only [Flexible.keepFirstAux, if_pos h]
      exact ih seen
    · simp only [Flexible.keepFirstAux, if_neg h]
      refine List.pairwise_cons.mpr ⟨?_, ih (key z :: seen)⟩
      intro x hx
      obtain ⟨_, hns⟩ := mem_keepFirstAux key (key z :: seen) zs x hx
      rw [List.contains_cons] at hns
      obtain ⟨hb, _⟩ := Bool.or_eq_false_iff.mp hns
      intro hcontra
      rw [hcontra] at hb
      simp at hb

/-- On a sorted list, every input element's key is represented in the
dedupe output by an element starting no later. -/
theorem keepFirstAux_coverage (key : TimeSlotWithResource → String) :
    ∀ (seen : List String) (l : List TimeSlotWithResource),
      l.Pairwise (fun a b => a.timeSlot.startTime ≤ b.timeSlot.startTime) →
      ∀ y ∈ l, seen.contains (key y) = false →
        ∃ x ∈ Flexible.keepFirstAux key seen l,
          key x = key y ∧ x.timeSlot.startTime ≤ y.timeSlot.startTime := by
  intro seen l
  induction l generalizing seen with
  | nil => simp
  | cons z zs ih =>
    intro hsort y hy hns
    obtain ⟨hz, hzs⟩ := List.pairwise_cons.mp hsort
    by_cases h : seen.contains (key z)
    · simp only [Flexible.keepFirstAux, if_pos h]
      rcases List.mem_cons.mp hy with rfl | hy'
      · rw [hns] at h
        exact absurd h (by simp)
      · exact ih seen hzs y hy' hns
    · simp only [Flexible.keepFirstAux, if_neg h]
      rcases List.mem_cons.mp hy with rfl | hy'
      · exact ⟨y, List.mem_cons_self _ _, rfl, le_refl _⟩
      · by_cases hkey : key y = key z
        · exact ⟨z, List.mem_cons_self _ _, hkey.symm, hz y hy'⟩
        · have hns' : (key z :: seen).contains (key y) = false := by
            rw [List.contains_cons, Bool.or_eq_false_iff]
            exact ⟨by simpa using hkey, hns⟩
          obtain ⟨x, hx, hk, hle⟩ := ih (key z :: seen) hzs y hy' hns'
          exact ⟨x, List.mem_cons_of_mem _ hx, hk, hle⟩

/-- C10: `formatSlots` returns a list sorted ascending by slot start time
containing at most one slot per local wall-clock time string; every slot
of the times response is represented by a kept slot with the same local
time string starting no later (the first occurrence after sorting), and
every kept slot comes from the response — slots sharing a local time
string with an earlier one are silently discarded. -/
theorem formatSlots_spec (localTimeString : Int → String)
    (times : TimesResponse) :
    (Flexible.formatSlots localTimeString times).Pairwise
      (fun a b => a.timeSlot.startTime ≤ b.timeSlot.startTime) ∧
    (Flexible.formatSlots localTimeString times).Pairwise
      (fun a b =>
        localTimeString a.timeSlot.startTime ≠
          localTimeString b.timeSlot.startTime) ∧
    (∀ x ∈ Flexible.formatSlots localTimeString times,
      x ∈ Flexible.flattenSlots times) ∧
    (∀ y ∈ Flexible.flattenSlots times,
      ∃ x ∈ Flexible.formatSlots localTimeString times,
        localTimeString x.timeSlot.startTime =
          localTimeString y.timeSlot.startTime ∧
        x.timeSlot.startTime ≤ y.timeSlot.startTime) := by
  refine ⟨?_, ?_, ?_, ?_⟩
  · exact List.Pairwise.sublist
      (keepFirstAux_sublist _ [] (Flexible.sortSlots (Flexible.flattenSlots times)))
      (sortSlots_sorted (Flexible.flattenSlots times))
  · exact keepFirstAux_pairwise _ [] _
  · intro x hx
    have hmem : x ∈ Flexible.sortSlots (Flexible.flattenSlots times) :=
      (keepFirstAux_sublist _ [] _).subset hx
    exact (sortSlots_perm (Flexible.flattenSlots times)).mem_iff.mp hmem
  · intro y hy
    have hy' : y ∈ Flexible.sortSlots (Flexible.flattenSlots times) :=
      (sortSlots_perm (Flexible.flattenSlots times)).mem_iff.mpr hy
    exact keepFirstAux_coverage _ [] _
      (sortSlots_sorted (Flexible.flattenSlots times)) y hy' rfl

/-- Witness for C10: two slots a day apart share a local time string;
the discarded later one is represented by the kept earlier one. -/
theorem formatSlots_spec_witness :
    ∃ x ∈ Flexible.formatSlots (fun t => natStr (t % 86400000).toNat)
        [("r1", [{ startTime := 0, endTime := 100 }]),
         ("r2", [{ startTime := 86400000, endTime := 86400100 }])],
      natStr ((x.timeSlot.startTime % 86400000)).toNat
          = natStr (((86400000 : Int) % 86400000)).toNat ∧
      x.timeSlot.startTime ≤ (86400000 : Int) :=
  (formatSlots_spec (fun t => natStr (t % 86400000).toNat)
      [("r1", [{ startTime := 0, endTime := 100 }]),
       ("r2", [{ startTime := 86400000, endTime := 86400100 }])]).2.2.2
    { timeSlot := { startTime := 86400000, endTime := 86400100 },
      resourceID := "r2" } (by decide)

end Booking
